import Mathlib

/-!
# Verification of the pyo3-stub-gen Sphinx documentation engine

Shallow embedding of `src/pyo3-stub-gen/src/docgen/sphinx_ext.py`:
the symbol classifier and string type parser (`_parse_and_link_type`),
the type tree renderer (`_build_type_expr`, `_build_generic_with_children`,
`_build_union_type`), the default value reconstructor
(`_build_default_value`, `_build_link_from_target`), and the
documentation tree assembler (`Pyo3APIDirective.run` together with its
helpers).

Modelling conventions:
* docutils/Sphinx nodes are modelled by the `DocNode` inductive: `text`
  is `nodes.Text`, `xref` is `sphinx.addnodes.pending_xref` (reftype,
  reftarget, refexplicit, children), `elem tag attrs children` covers the
  remaining containers (`nodes.inline`, `nodes.section`, `desc`, ...)
  with their string attributes flattened into `attrs`, and `indexNode`
  is `sphinx.addnodes.index` (its entries reduced to the
  (entryname, target) pairs; the constant `'single'`, `''` and `None`
  components are dropped).
* Python strings are sequences of characters; all string manipulation is
  done on `String.data : List Char` with small structural helpers so
  that every definition is kernel-computable.  Python slices
  `s[a:b]` (with non-negative clamped indices) are `pySlice`.
* Environment side effects of the Sphinx directive
  (`py_domain.note_object`, `note_module` registration) produce no
  output nodes and are modelled as no-ops; the external MyST markup
  parser `_parse_myst` is passed in as an opaque function
  `myst : String → List DocNode`, since it is an external collaborator
  of the engine.
* `str(default_value)` for the unknown-kind fallback is carried as an
  abstract `repr` field on `DefaultValue`; the embedding does not
  reimplement Python's dict printing.
-/

/-- Abstract documentation-tree node (docutils / Sphinx addnodes). -/
inductive DocNode where
  | text (s : String)
  | xref (reftype : String) (reftarget : String) (refexplicit : Bool)
      (children : List DocNode)
  | elem (tag : String) (attrs : List String) (children : List DocNode)
  | indexNode (entries : List (String × String))

mutual
/-- Concatenated plain text of a node (the `astext()` of docutils). -/
def nodeText : DocNode → String
  | .text s => s
  | .xref _ _ _ cs => nodesText cs
  | .elem _ _ cs => nodesText cs
  | .indexNode _ => ""

/-- Concatenated text of a list of nodes, in order. -/
def nodesText : List DocNode → String
  | [] => ""
  | n :: ns => nodeText n ++ nodesText ns
end

/-- Direct children of a container node. -/
def topChildren : DocNode → List DocNode
  | .xref _ _ _ cs => cs
  | .elem _ _ cs => cs
  | _ => []

/-- Is the node a `pending_xref` (a linked span)? -/
def isLinkedSpan : DocNode → Bool
  | .xref _ _ _ _ => true
  | _ => false

/-- Is the node the plain text node carrying exactly `s`? -/
def isTextNode (s : String) : DocNode → Bool
  | .text t => t == s
  | _ => false

/-! ## Python string primitives (character level) -/

/-- Python slice `s[a:b]` for non-negative indices (clamped to the
string, empty when `b ≤ a`). -/
def pySlice (s : String) (a b : Nat) : String :=
  ⟨(s.data.drop a).take (b - a)⟩

/-- Python `c in s` for a single character. -/
def pyHasChar (s : String) (c : Char) : Bool :=
  s.data.contains c

/-- Python `s.split(c)` for a one-character separator. -/
def splitOnChar (c : Char) (l : List Char) : List (List Char) :=
  match l with
  | [] => [[]]
  | x :: xs =>
    if x = c then [] :: splitOnChar c xs
    else
      match splitOnChar c xs with
      | [] => [[x]]
      | p :: r => (x :: p) :: r

/-- Python `s.split('.')`, as strings. -/
def pySplitDots (s : String) : List String :=
  (splitOnChar '.' s.data).map (fun p => ⟨p⟩)

/-- Python `'.'.join(parts)`. -/
def dotJoin : List String → String
  | [] => ""
  | [p] => p
  | p :: ps => p ++ "." ++ dotJoin ps

/-- Python `s.strip()` (leading and trailing whitespace removed). -/
def pyStrip (s : String) : String :=
  ⟨((s.data.dropWhile Char.isWhitespace).reverse.dropWhile
      Char.isWhitespace).reverse⟩

/-- Python `s.rstrip()` (trailing whitespace removed). -/
def pyRstrip (s : String) : String :=
  ⟨(s.data.reverse.dropWhile Char.isWhitespace).reverse⟩

/-- Chars of `s` before the last `'.'` and after it, when `s` has a dot. -/
def beforeAfterLastDot : List Char → Option (List Char × List Char)
  | [] => none
  | c :: rest =>
    match beforeAfterLastDot rest with
    | some (b, a) => some (c :: b, a)
    | none => if c = '.' then some ([], rest) else none

/-- Python `s.rsplit('.', 1)[0]` (used with a `'.' in s` guard). -/
def beforeLastDot (s : String) : String :=
  match beforeAfterLastDot s.data with
  | some (b, _) => ⟨b⟩
  | none => s

/-- The component of `s` after its last `'.'` (`s` itself if dot-free). -/
def afterLastDot (s : String) : String :=
  match beforeAfterLastDot s.data with
  | some (_, a) => ⟨a⟩
  | none => s

/-- Truthiness of an optional Python string (`None` and `''` are falsy). -/
def optTruthy : Option String → Bool
  | some s => !(s == "")
  | none => false

/-! ## Data model (the JSON IR of §3 of the spec) -/

/-- `LinkTarget`: kind, fully qualified name, attribute flag
(`attr` models the `attribute` key as read by
`link_target.get('attribute')`, absent ≡ `False`; `attribute` is a Lean
keyword). -/
structure LinkTarget where
  kind : String
  fqn : String
  attr : Bool

/-- `TypeRef` of an `Expression` default value. -/
structure TypeRef where
  offset : Nat
  text : String
  link_target : Option LinkTarget

/-- `DefaultValue`: the raw JSON dict, with its `kind` discriminator as
read by `default_value.get('kind')`.  `value` is meaningful for
`Simple`, `display`/`type_refs` for `Expression`; `repr` carries the
Python `str()` of the whole raw value used by the unknown-kind
fallback. -/
structure DefaultValue where
  kind : Option String
  value : String
  display : String
  type_refs : List TypeRef
  repr : String

/-- `TypeExpression`: display text, optional link target, children. -/
inductive TypeExpr where
  | mk (display : String) (link_target : Option LinkTarget)
      (children : List TypeExpr)

def TypeExpr.display : TypeExpr → String
  | .mk d _ _ => d

def TypeExpr.link_target : TypeExpr → Option LinkTarget
  | .mk _ lt _ => lt

def TypeExpr.children : TypeExpr → List TypeExpr
  | .mk _ _ cs => cs

/-- One function parameter: name, type, optional default. -/
structure Parameter where
  name : String
  type_ : TypeExpr
  default : Option DefaultValue

/-- One overload signature. -/
structure Signature where
  parameters : List Parameter
  return_type : Option TypeExpr

/-- A method of a class (name, overload signatures, docstring). -/
structure FuncLike where
  name : String
  signatures : List Signature
  doc : Option String

/-- A class attribute (name, optional type, docstring). -/
structure AttrLike where
  name : String
  type_ : Option TypeExpr
  doc : Option String

/-- A `DocItem` with its `kind` discriminator string
(`"Function" | "Class" | "TypeAlias" | "Variable" | "Module"`); the
kind-specific fields mirror the JSON dict keys (fields not belonging to
an item's kind are never read by the engine). -/
structure DocItem where
  kind : String
  name : String
  fqn : String
  doc : Option String
  signatures : List Signature
  methods : List FuncLike
  attributes : List AttrLike
  definition : TypeExpr
  type_ : Option TypeExpr

/-- A `DocModule`: docstring and ordered items. -/
structure DocModule where
  doc : Option String
  items : List DocItem

/-- A `DocPackage`: the `modules` mapping (association list keyed by
fully qualified module name) and the
`config.get('contents-table', False)` flag. -/
structure DocPackage where
  modules : List (String × DocModule)
  contentsTable : Bool

/-! ## Symbol classifier and string type parser (`_parse_and_link_type`) -/

/-- `EXTERNAL_MODULES` of `_parse_and_link_type`. -/
def externalModules : List String :=
  ["builtins", "typing", "collections", "collections.abc",
   "typing_extensions", "decimal", "datetime", "pathlib",
   "numpy", "numpy.typing"]

/-- Keys of `SPECIAL_CONSTANTS`. -/
def isSpecialConstant (name : String) : Bool :=
  name ∈ ["None", "True", "False"]

/-- The `typing` names treated as `py:data` (both in the dotted branch
and the bare-name branch). -/
def typingDataNames : List String :=
  ["Any", "Optional", "Literal", "LiteralString", "AnyStr", "NoReturn",
   "Never", "Self", "TypeAlias", "ClassVar", "Final"]

/-- Bare builtin names rendered as plain text. -/
def bareBuiltins : List String :=
  ["int", "str", "float", "bool", "bytes", "list", "dict", "tuple",
   "set", "frozenset", "type", "object", "complex"]

/-- Bare `typing` names treated as `py:class`. -/
def bareTypingClassNames : List String :=
  ["Union", "TypeVar", "Generic", "Protocol"]

/-- Bare `collections.abc` names (linked as `py:class`). -/
def bareAbcNames : List String :=
  ["Sequence", "Mapping", "Callable", "Iterable", "Iterator",
   "Collection", "Container", "MutableSequence", "MutableMapping"]

/-- The `for k in range(len(parts), 0, -1)` search for the module
prefix: the first (largest) `k` with `'.'.join(parts[:k])` in
`EXTERNAL_MODULES`, scanning `k` downwards. -/
def findModuleK : Nat → List String → Option Nat
  | 0, _ => none
  | k + 1, parts =>
    if dotJoin (parts.take (k + 1)) ∈ externalModules then some (k + 1)
    else findModuleK k parts

/-- Module-prefix search over all of `parts`. -/
def findModule (parts : List String) : Option Nat :=
  findModuleK parts.length parts

/-- Classification of one matched identifier: the body of the scanning
loop of `_parse_and_link_type` after `re.match` succeeded
(lines 56–141 of `sphinx_ext.py`). -/
def classifyName (name : String) : DocNode :=
  if isSpecialConstant name then .text name
  else if pyHasChar name '.' then
    let parts := pySplitDots name
    match findModule parts with
    | none => .text name
    | some k =>
      let module := dotJoin (parts.take k)
      if module = "builtins" then .text name
      else
        let type_name := parts.getLastD ""
        let reftype :=
          if module = "typing" then
            if type_name ∈ typingDataNames then "data" else "class"
          else "class"
        .xref reftype name false [.elem "literal" [] [.text name]]
  else if name ∈ bareBuiltins then .text name
  else if name ∈ typingDataNames then
    .xref "data" ("typing." ++ name) false [.text name]
  else if name ∈ bareTypingClassNames then
    .xref "class" ("typing." ++ name) false [.text name]
  else if name ∈ bareAbcNames then
    .xref "class" ("collections.abc." ++ name) false [.text name]
  else .text name

/-- First character of the identifier grammar `[a-zA-Z_]`. -/
def isIdentStart (c : Char) : Bool :=
  c.isAlpha || c == '_'

/-- Continuation characters `[a-zA-Z0-9_.]`. -/
def isIdentCont (c : Char) : Bool :=
  c.isAlphanum || c == '_' || c == '.'

/-- The separator characters `'[](),|'`. -/
def isSepChar (c : Char) : Bool :=
  c ∈ ['[', ']', '(', ')', ',', '|']

/-- The scanning loop `parse_recursive` of `_parse_and_link_type`, with
an explicit fuel argument (the loop advances at least one character per
iteration, so fuel `l.length` is always sufficient; the fuel-exhausted
arm is unreachable for that choice and only makes the recursion
structural). -/
def parseFuel : Nat → List Char → List DocNode
  | _, [] => []
  | 0, _ :: _ => []
  | d + 1, c :: rest =>
    if c.isWhitespace then .text ⟨[c]⟩ :: parseFuel d rest
    else if isSepChar c then .text ⟨[c]⟩ :: parseFuel d rest
    else if isIdentStart c then
      let nm : List Char := c :: rest.takeWhile isIdentCont
      classifyName ⟨nm⟩ :: parseFuel d (rest.dropWhile isIdentCont)
    else .text ⟨[c]⟩ :: parseFuel d rest

/-- `parse_recursive` on a character list. -/
def parseRecursive (l : List Char) : List DocNode :=
  parseFuel l.length l

/-- `_parse_and_link_type`: parse the display string and wrap the
fragments in an inline container. -/
def parseAndLinkType (type_str : String) : DocNode :=
  .elem "inline" [] (parseRecursive type_str.data)

/-! ## Type tree renderer (`_build_type_expr` and friends) -/

/-- `_kind_to_reftype`: map an item kind to the Sphinx reftype. -/
def kindToReftype (kind : String) : String :=
  if kind = "Class" then "class"
  else if kind = "Function" then "func"
  else if kind = "TypeAlias" then "data"
  else if kind = "Variable" then "data"
  else if kind = "Module" then "mod"
  else "obj"

/-- `display.split('[')[0] if '[' in display else display`. -/
def baseNameOf (display : String) : String :=
  if pyHasChar display '[' then
    ⟨(splitOnChar '[' display.data).headD []⟩
  else display

mutual
/-- `_build_type_expr`: the four cases, in source order. -/
def buildTypeExpr (type_expr : TypeExpr) : DocNode :=
  match type_expr with
  | .mk display link_target children =>
    match link_target, children with
    | some lt, c :: cs =>
      -- Case 1: link target and children
      let xref : DocNode :=
        .xref (kindToReftype lt.kind) lt.fqn true [.text (baseNameOf display)]
      buildGenericWithChildren xref (c :: cs)
    | some lt, [] =>
      -- Case 2: link target, no children
      .xref (kindToReftype lt.kind) lt.fqn true [.text display]
    | none, c :: cs =>
      -- Case 3: children, no link target
      if pyHasChar display '|' then buildUnionType (c :: cs)
      else
        buildGenericWithChildren (parseAndLinkType (baseNameOf display)) (c :: cs)
    | none, [] =>
      -- Case 4: no link target, no children
      parseAndLinkType display

/-- `_build_generic_with_children`: `base [ c₁, c₂, … ]`. -/
def buildGenericWithChildren (base_node : DocNode) (children : List TypeExpr) :
    DocNode :=
  .elem "inline" []
    (base_node :: .text "[" :: (buildSeq ", " true children ++ [.text "]"]))

/-- `_build_union_type`: children joined by `" | "`, no brackets. -/
def buildUnionType (children : List TypeExpr) : DocNode :=
  .elem "inline" [] (buildSeq " | " true children)

/-- The shared `for i, child in enumerate(children)` loop bodies: render
children in order, prefixing each one except the first with the
separator text. -/
def buildSeq (sep : String) (first : Bool) : List TypeExpr → List DocNode
  | [] => []
  | t :: rest =>
    (if first then ([] : List DocNode) else [.text sep]) ++
      (buildTypeExpr t :: buildSeq sep false rest)
end

/-! ## Default value reconstructor (`_build_default_value`) -/

/-- `_build_link_from_target`. -/
def buildLinkFromTarget (text : String) (link_target : LinkTarget) : DocNode :=
  if link_target.attr then
    .xref "attribute" link_target.fqn true [.text text]
  else
    .xref (kindToReftype link_target.kind) link_target.fqn true [.text text]

/-- The node emitted for one `TypeRef` (linked when it carries a
`link_target`, plain text otherwise). -/
def refFragment (ref : TypeRef) : DocNode :=
  match ref.link_target with
  | some lt => buildLinkFromTarget ref.text lt
  | none => .text ref.text

/-- The comparison underlying
`sorted(type_refs, key=lambda r: r['offset'], reverse=True)`.
`refGE a b` holds when `a` may precede `b` in descending order; Python's
sort is stable, as is `List.insertionSort` with this relation. -/
def refGE (a b : TypeRef) : Prop :=
  b.offset ≤ a.offset

instance : DecidableRel refGE := fun a b => Nat.decLe b.offset a.offset

instance : IsTotal TypeRef refGE :=
  ⟨fun a b => Nat.le_total b.offset a.offset⟩

instance : IsTrans TypeRef refGE :=
  ⟨fun _ _ _ hab hbc => Nat.le_trans hbc hab⟩

/-- One iteration of the `for ref in sorted(...)` loop: state is the
accumulating `nodes_list` (built by `insert(0, ·)`, so the list is in
final order) and `last_pos`. -/
def dvStep (expr : String) (st : List DocNode × Nat) (ref : TypeRef) :
    List DocNode × Nat :=
  let ns :=
    if ref.offset + ref.text.length < st.2 then
      DocNode.text (pySlice expr (ref.offset + ref.text.length) st.2) :: st.1
    else st.1
  (refFragment ref :: ns, ref.offset)

/-- The `Expression` branch of `_build_default_value`: process refs in
stable descending-offset order, then prepend the leading literal text. -/
def buildExprFrags (expr : String) (type_refs : List TypeRef) : List DocNode :=
  let sorted := List.insertionSort refGE type_refs
  let res := sorted.foldl (dvStep expr) ([], expr.length)
  if 0 < res.2 then DocNode.text (pySlice expr 0 res.2) :: res.1 else res.1

/-- `_build_default_value`. -/
def buildDefaultValue (default_value : DefaultValue) : DocNode :=
  if default_value.kind = some "Simple" then .text default_value.value
  else if default_value.kind = some "Expression" then
    .elem "inline" ["default_value"]
      (buildExprFrags default_value.display default_value.type_refs)
  else .text default_value.repr

/-! ## Documentation tree assembler helpers -/

/-- `_create_index_node` (the `inline=False` attribute and the constant
entry components are dropped from the model, see the header). -/
def createIndexNode (fullname objtype : String) (display_name : Option String) :
    DocNode :=
  let dn := display_name.getD fullname
  let entries : List (String × String) :=
    if objtype = "module" then
      [(fullname ++ " (module)", fullname)]
    else if objtype = "class" ∨ objtype = "function" ∨ objtype = "data" then
      [(dn, fullname)] ++
        (if pyHasChar fullname '.' then
          let module_name := beforeLastDot fullname
          if objtype = "function" then
            [(dn ++ "() (in module " ++ module_name ++ ")", fullname)]
          else
            [(dn ++ " (in module " ++ module_name ++ ")", fullname)]
        else [])
    else if objtype = "method" ∨ objtype = "attribute" then
      -- `fullname.rsplit('.', 2)` has ≥ 3 parts iff `fullname` has ≥ 2 dots
      if pyHasChar fullname '.' ∧ pyHasChar (beforeLastDot fullname) '.' then
        let class_name := afterLastDot (beforeLastDot fullname)
        let member_name := afterLastDot fullname
        if objtype = "method" then
          [(member_name ++ "() (" ++ class_name ++ " method)", fullname)]
        else
          [(member_name ++ " (" ++ class_name ++ " attribute)", fullname)]
      else [(dn, fullname)]
    else []
  .indexNode entries

/-- The `**…**` / `*…*` / `` `…` `` stripping of
`_extract_first_line_doc`: one `re.sub(d ([^c]+) d, \1, s)` pass, where
`d` is the delimiter and `c` its first character.  Fuel-structural: the
scan advances at least one character per step, so fuel `s.length` is
exact; the fuel-0 arm is unreachable for that choice. -/
def subWrappedGo (d : List Char) (c : Char) : Nat → List Char → List Char
  | _, [] => []
  | 0, s => s
  | fuel + 1, x :: rest =>
    if d.isPrefixOf (x :: rest) then
      let after := (x :: rest).drop d.length
      let run := after.takeWhile (fun ch => ch ≠ c)
      let rem := after.dropWhile (fun ch => ch ≠ c)
      if !run.isEmpty && d.isPrefixOf rem then
        run ++ subWrappedGo d c fuel (rem.drop d.length)
      else x :: subWrappedGo d c fuel rest
    else x :: subWrappedGo d c fuel rest

/-- `re.sub(d([^c]+)d, r'\1', s)` for the three markdown patterns. -/
def subWrapped (d : List Char) (c : Char) (s : List Char) : List Char :=
  subWrappedGo d c s.length s

/-- `_extract_first_line_doc` (the backtick character is written
`Char.ofNat 96`). -/
def extractFirstLineDoc (doc_string : String) (max_length : Nat) : String :=
  if doc_string = "" then ""
  else
    let lines := (splitOnChar '\n' (pyStrip doc_string).data).map
      (fun p => (⟨p⟩ : String))
    let first_line := ((lines.map pyStrip).filter (fun l => l ≠ "")).headD ""
    let f1 : String := ⟨subWrapped ['*', '*'] '*' first_line.data⟩
    let f2 : String := ⟨subWrapped ['*'] '*' f1.data⟩
    let f3 : String := ⟨subWrapped [Char.ofNat 96] (Char.ofNat 96) f2.data⟩
    if max_length < f3.data.length then
      pyRstrip (pySlice f3 0 max_length) ++ "..."
    else f3

/-- `_group_items_by_kind`, as the four groups in dict-key order
(functions, classes, type_aliases, variables). -/
def groupItemsByKind (items : List DocItem) :
    List DocItem × List DocItem × List DocItem × List DocItem :=
  (items.filter (fun i => i.kind = "Function"),
   items.filter (fun i => i.kind = "Class"),
   items.filter (fun i => i.kind = "TypeAlias"),
   items.filter (fun i => i.kind = "Variable"))

/-- `_get_reftype_for_item`. -/
def getReftypeForItem (item : DocItem) : String :=
  if item.kind = "Function" then "func"
  else if item.kind = "Class" then "class"
  else if item.kind = "TypeAlias" then "data"
  else if item.kind = "Variable" then "data"
  else "obj"

/-- One row of `_build_contents_table`. -/
def contentsRow (module_name : String) (item : DocItem) : DocNode :=
  let item_fqn := module_name ++ "." ++ item.name
  let description := extractFirstLineDoc (item.doc.getD "") 100
  .elem "row" []
    [.elem "entry" []
      [.elem "paragraph" []
        [.xref (getReftypeForItem item) item_fqn false
          [.elem "literal" ["xref", "py"] [.text item.name]]]],
     .elem "entry" []
      (if description ≠ "" then [.elem "paragraph" [] [.text description]]
       else [])]

/-- `_build_contents_table`: `[rubric, table]` for one category. -/
def buildContentsTable (category_title : String) (items : List DocItem)
    (module_name : String) : List DocNode :=
  [.elem "rubric" [] [.text category_title],
   .elem "table" []
    [.elem "tgroup" ["2"]
      [.elem "colspec" ["30"] [],
       .elem "colspec" ["70"] [],
       .elem "thead" []
        [.elem "row" []
          [.elem "entry" [] [.elem "paragraph" [] [.text "Name"]],
           .elem "entry" [] [.elem "paragraph" [] [.text "Description"]]]],
       .elem "tbody" [] (items.map (contentsRow module_name))]]]

/-- `_build_module_contents_table`. -/
def buildModuleContentsTable (doc_module : DocModule) (module_name : String) :
    List DocNode :=
  let groups := groupItemsByKind doc_module.items
  if groups.1.isEmpty ∧ groups.2.1.isEmpty ∧ groups.2.2.1.isEmpty ∧
      groups.2.2.2.isEmpty then []
  else
    [.elem "section" [module_name ++ "-contents"]
      (.elem "title" [] [.text "Module Contents"] ::
        ((if !groups.2.1.isEmpty then
            buildContentsTable "Classes" groups.2.1 module_name
          else []) ++
         (if !groups.1.isEmpty then
            buildContentsTable "Functions" groups.1 module_name
          else []) ++
         (if !groups.2.2.1.isEmpty then
            buildContentsTable "Type Aliases" groups.2.2.1 module_name
          else []) ++
         (if !groups.2.2.2.isEmpty then
            buildContentsTable "Variables" groups.2.2.2 module_name
          else [])))]

/-- `_build_callable_signatures`: one `desc_signature` per overload; the
attrs are `[module, fullname] ++ ids ++ [first-flag]` (only the first
overload carries the id `fullname` and flag `"first"`). -/
def buildCallableSignatures (signatures : List Signature)
    (name module_name fullname : String) : List DocNode :=
  signatures.enum.map (fun p =>
    .elem "desc_signature"
      ([module_name, fullname] ++
        (if p.1 = 0 then [fullname] else []) ++
        [if p.1 = 0 then "first" else "notfirst"])
      ([.elem "desc_name" [] [.text name],
        .elem "desc_parameterlist" []
          (p.2.parameters.map (fun param =>
            .elem "desc_parameter" []
              ([.text (param.name ++ ": "), buildTypeExpr param.type_] ++
                (match param.default with
                 | some d => [.text " = ", buildDefaultValue d]
                 | none => []))))] ++
        (match p.2.return_type with
         | some rt => [.elem "desc_returns" [] [buildTypeExpr rt]]
         | none => [])))

/-- `_build_function` (the `_register_py_object` call is an environment
side effect with no output). -/
def buildFunction (myst : String → List DocNode) (func : DocItem)
    (module_name : String) : List DocNode :=
  let fullname := module_name ++ "." ++ func.name
  [createIndexNode fullname "function" (some func.name),
   .elem "desc" ["py", "function", "py", "function"]
    (buildCallableSignatures func.signatures func.name module_name fullname ++
      (if optTruthy func.doc then
        [.elem "desc_content" [] (myst (func.doc.getD ""))]
      else []))]

/-- `_build_type_alias`. -/
def buildTypeAlias (myst : String → List DocNode) (als : DocItem)
    (module_name : String) : List DocNode :=
  let fullname := module_name ++ "." ++ als.name
  [createIndexNode fullname "data" (some als.name),
   .elem "desc" ["py", "data"]
    ([.elem "desc_signature" [module_name, fullname, fullname]
       [.elem "desc_annotation" [] [.text "type "],
        .elem "desc_name" [] [.text als.name],
        .text " = ",
        buildTypeExpr als.definition]] ++
      (if optTruthy als.doc then
        [.elem "desc_content" [] (myst (als.doc.getD ""))]
      else []))]

/-- The per-method block of `_build_class`. -/
def buildMethod (myst : String → List DocNode) (module_name fullname : String)
    (method : FuncLike) : List DocNode :=
  let method_fullname := fullname ++ "." ++ method.name
  [createIndexNode method_fullname "method" (some method.name),
   .elem "desc" ["py", "method", "py", "method"]
    (buildCallableSignatures method.signatures method.name module_name
        method_fullname ++
      (if optTruthy method.doc then
        [.elem "desc_content" [] (myst (method.doc.getD ""))]
      else []))]

/-- The per-attribute block of `_build_class`. -/
def buildAttribute (myst : String → List DocNode) (module_name fullname : String)
    (attr : AttrLike) : List DocNode :=
  let attr_fullname := fullname ++ "." ++ attr.name
  [createIndexNode attr_fullname "attribute" (some attr.name),
   .elem "desc" ["py", "attribute"]
    ([.elem "desc_signature" [module_name, attr_fullname, attr_fullname]
       ([.elem "desc_name" [] [.text attr.name]] ++
         (match attr.type_ with
          | some t => [.text ": ", buildTypeExpr t]
          | none => []))] ++
      (if optTruthy attr.doc then
        [.elem "desc_content" [] (myst (attr.doc.getD ""))]
      else []))]

/-- `_build_class`. -/
def buildClass (myst : String → List DocNode) (cls : DocItem)
    (module_name : String) : List DocNode :=
  let fullname := module_name ++ "." ++ cls.name
  [createIndexNode fullname "class" (some cls.name),
   .elem "desc" ["py", "class", "py", "class"]
    [.elem "desc_signature" [module_name, fullname, fullname]
      [.elem "desc_annotation" []
        [.elem "inline" ["k"] [.text "class"],
         .elem "inline" ["w"] [.text " "]],
       .elem "desc_name" [] [.text cls.name]],
     .elem "desc_content" []
      ((if optTruthy cls.doc then myst (cls.doc.getD "") else []) ++
        cls.methods.flatMap (buildMethod myst module_name fullname) ++
        cls.attributes.flatMap (buildAttribute myst module_name fullname))]]

/-- `_build_variable`. -/
def buildVariable (myst : String → List DocNode) (var : DocItem)
    (module_name : String) : List DocNode :=
  let fullname := module_name ++ "." ++ var.name
  [createIndexNode fullname "data" (some var.name),
   .elem "desc" ["py", "data"]
    ([.elem "desc_signature" [module_name, fullname, fullname]
       ([.elem "desc_name" [] [.text var.name]] ++
         (match var.type_ with
          | some t => [.text ": ", buildTypeExpr t]
          | none => []))] ++
      (if optTruthy var.doc then
        [.elem "desc_content" [] (myst (var.doc.getD ""))]
      else []))]

/-- `_build_submodule` (one bullet-list item; the `reference` node's
attrs are `[refuri, reftitle]`). -/
def buildSubmodule (myst : String → List DocNode) (submod : DocItem) :
    List DocNode :=
  let submod_doc := submod.doc.getD ""
  [.elem "list_item" []
    ([.elem "paragraph" []
       [.elem "strong" [] [.text "module "],
        .elem "reference"
          [submod.fqn ++ ".html", "Link to " ++ submod.fqn ++ " module"]
          [.elem "literal" ["xref", "py", "py-mod"] [.text submod.name]]]] ++
      (if optTruthy submod.doc then myst submod_doc else []))]

/-- `modules.get(name)` for the association-list dict model. -/
def lookupModule (pkg : DocPackage) (module_name : String) : Option DocModule :=
  pkg.modules.lookup module_name

/-- `Pyo3APIDirective.run` after the JSON IR has been loaded (the
`note_module` registration is an environment side effect with no output
nodes).  Returns the module's documentation-node sequence. -/
def runModule (pkg : DocPackage) (module_name : String)
    (myst : String → List DocNode) : List DocNode :=
  match lookupModule pkg module_name with
  | none =>
    [.elem "error" []
      [.elem "paragraph" [] [.text ("Module not found: " ++ module_name)]]]
  | some doc_module =>
    let functions := doc_module.items.filter (fun i => i.kind = "Function")
    let classes := doc_module.items.filter (fun i => i.kind = "Class")
    let type_aliases := doc_module.items.filter (fun i => i.kind = "TypeAlias")
    let vars := doc_module.items.filter (fun i => i.kind = "Variable")
    let modules := doc_module.items.filter (fun i => i.kind = "Module")
    createIndexNode module_name "module" none ::
      ((if optTruthy doc_module.doc then myst (doc_module.doc.getD "")
        else []) ++
       (if pkg.contentsTable then
          buildModuleContentsTable doc_module module_name
        else []) ++
       (if !modules.isEmpty then
          [.elem "section" [module_name ++ "-submodules"]
            [.elem "title" [] [.text "Submodules"],
             .elem "bullet_list" [] (modules.flatMap (buildSubmodule myst))]]
        else []) ++
       (if !functions.isEmpty then
          [.elem "section" [module_name ++ "-functions"]
            (.elem "title" [] [.text "Functions"] ::
              functions.flatMap (fun f => buildFunction myst f module_name))]
        else []) ++
       (if !classes.isEmpty then
          [.elem "section" [module_name ++ "-classes"]
            (.elem "title" [] [.text "Classes"] ::
              classes.flatMap (fun c => buildClass myst c module_name))]
        else []) ++
       (if !type_aliases.isEmpty then
          [.elem "section" [module_name ++ "-type-aliases"]
            (.elem "title" [] [.text "Type Aliases"] ::
              type_aliases.flatMap (fun a => buildTypeAlias myst a module_name))]
        else []) ++
       (if !vars.isEmpty then
          [.elem "section" [module_name ++ "-variables"]
            (.elem "title" [] [.text "Variables"] ::
              vars.flatMap (fun v => buildVariable myst v module_name))]
        else []))

/-- The base node of a generic rendering: the `link_target` xref in
case 1 of `_build_type_expr`, the string-parsed base name in case 3. -/
def genericBase (display : String) : Option LinkTarget → DocNode
  | some l => .xref (kindToReftype l.kind) l.fqn true [.text (baseNameOf display)]
  | none => parseAndLinkType (baseNameOf display)

/-- The non-overlap invariant on two references: their regions
`[offset, offset + len(text))` are disjoint intervals. -/
def disjointRefs (a b : TypeRef) : Prop :=
  a.offset + a.text.length ≤ b.offset ∨ b.offset + b.text.length ≤ a.offset

instance : DecidableRel disjointRefs := fun a b =>
  inferInstanceAs (Decidable (a.offset + a.text.length ≤ b.offset ∨
    b.offset + b.text.length ≤ a.offset))

/-- Descending chain of regions below a boundary: each reference ends
at or before the current boundary, which then moves to its offset. -/
def chainBelow : Nat → List TypeRef → Prop
  | _, [] => True
  | L, r :: rs => r.offset + r.text.length ≤ L ∧ chainBelow r.offset rs

/-- A later reference in the sorted order ends at or before an earlier
one begins. -/
def refChain (a b : TypeRef) : Prop :=
  b.offset + b.text.length ≤ a.offset

/-- The fixed per-kind section order: Submodules, Functions, Classes,
Type Aliases, Variables. -/
def kindSectionOrder : List String :=
  ["Module", "Function", "Class", "TypeAlias", "Variable"]

/-- The section the entry point emits for one item kind: empty when the
kind-group is empty, otherwise one titled section whose content renders
the group's items in their original relative order. -/
def kindSection (myst : String → List DocNode) (module_name : String)
    (items : List DocItem) : String → List DocNode
  | "Module" =>
    let group := items.filter (fun i => i.kind = "Module")
    if !group.isEmpty then
      [.elem "section" [module_name ++ "-submodules"]
        [.elem "title" [] [.text "Submodules"],
         .elem "bullet_list" [] (group.flatMap (buildSubmodule myst))]]
    else []
  | "Function" =>
    let group := items.filter (fun i => i.kind = "Function")
    if !group.isEmpty then
      [.elem "section" [module_name ++ "-functions"]
        (.elem "title" [] [.text "Functions"] ::
          group.flatMap (fun f => buildFunction myst f module_name))]
    else []
  | "Class" =>
    let group := items.filter (fun i => i.kind = "Class")
    if !group.isEmpty then
      [.elem "section" [module_name ++ "-classes"]
        (.elem "title" [] [.text "Classes"] ::
          group.flatMap (fun c => buildClass myst c module_name))]
    else []
  | "TypeAlias" =>
    let group := items.filter (fun i => i.kind = "TypeAlias")
    if !group.isEmpty then
      [.elem "section" [module_name ++ "-type-aliases"]
        (.elem "title" [] [.text "Type Aliases"] ::
          group.flatMap (fun a => buildTypeAlias myst a module_name))]
    else []
  | "Variable" =>
    let group := items.filter (fun i => i.kind = "Variable")
    if !group.isEmpty then
      [.elem "section" [module_name ++ "-variables"]
        (.elem "title" [] [.text "Variables"] ::
          group.flatMap (fun v => buildVariable myst v module_name))]
    else []
  | _ => []

/-- Everything the entry point emits before the per-kind sections: the
module index entry, the module docstring (when truthy) and the optional
contents table. -/
def runPreamble (pkg : DocPackage) (module_name : String)
    (myst : String → List DocNode) (doc_module : DocModule) : List DocNode :=
  createIndexNode module_name "module" none ::
    ((if optTruthy doc_module.doc then myst (doc_module.doc.getD "")
      else []) ++
     (if pkg.contentsTable then
        buildModuleContentsTable doc_module module_name
      else []))

/-- A small concrete module exercising all five item kinds, used to
witness the section-order theorem. -/
def c8Module : DocModule :=
  ⟨some "Module doc",
   [⟨"Module", "sub", "m.sub", none, [], [], [], .mk "" none [], none⟩,
    ⟨"Function", "f", "", some "Does f",
      [⟨[⟨"x", .mk "int" none [], some ⟨some "Simple", "1", "", [], ""⟩⟩],
        some (.mk "int" none [])⟩], [], [], .mk "" none [], none⟩,
    ⟨"Class", "C", "", none, [], [⟨"m", [⟨[], none⟩], none⟩],
      [⟨"a", some (.mk "int" none []), none⟩], .mk "" none [], none⟩,
    ⟨"TypeAlias", "A", "", none, [], [], [], .mk "int" none [], none⟩,
    ⟨"Variable", "v", "", none, [], [], [], .mk "" none [],
      some (.mk "int" none [])⟩]⟩

/-- The package holding `c8Module` under the name `"m"`. -/
def c8Package : DocPackage := ⟨[("m", c8Module)], false⟩

/-! ## Generic facts about the embedding -/

theorem string_data_append (a b : String) : (a ++ b).data = a.data ++ b.data :=
  rfl

theorem nodesText_append (l₁ l₂ : List DocNode) :
    nodesText (l₁ ++ l₂) = nodesText l₁ ++ nodesText l₂ := by
  induction l₁ with
  | nil => simp [nodesText]
  | cons n ns ih => simp [nodesText, ih, String.append_assoc]

/-! ## C4: classifier examples -/

/-- C4: the symbol classifier sends `"numpy.ndarray"` to a
class-category external link targeting `numpy.ndarray`, `"int"` to
plain unlinked text, and `"typing.Optional"` to a data-category link
targeting `typing.Optional` (both as the bare classification and
through `_parse_and_link_type`). -/
theorem classifier_examples :
    classifyName "numpy.ndarray" =
      .xref "class" "numpy.ndarray" false
        [.elem "literal" [] [.text "numpy.ndarray"]] ∧
    classifyName "int" = .text "int" ∧
    classifyName "typing.Optional" =
      .xref "data" "typing.Optional" false
        [.elem "literal" [] [.text "typing.Optional"]] ∧
    parseAndLinkType "numpy.ndarray" =
      .elem "inline" []
        [.xref "class" "numpy.ndarray" false
          [.elem "literal" [] [.text "numpy.ndarray"]]] ∧
    parseAndLinkType "int" = .elem "inline" [] [.text "int"] :=
  ⟨rfl, rfl, rfl, rfl, rfl⟩

/-! ## C7: missing module -/

/-- C7: when the requested module name is absent from the package's
modules mapping, `Pyo3APIDirective.run` returns exactly one inline
error fragment whose text mentions the missing module name, and nothing
else. -/
theorem missing_module_error (pkg : DocPackage) (module_name : String)
    (myst : String → List DocNode)
    (h : lookupModule pkg module_name = none) :
    runModule pkg module_name myst =
      [.elem "error" []
        [.elem "paragraph" []
          [.text ("Module not found: " ++ module_name)]]] ∧
    module_name.data <:+: ("Module not found: " ++ module_name).data := by
  constructor
  · simp only [runModule, h]
  · exact ⟨"Module not found: ".data, [], by simp [string_data_append]⟩

/-- Witness for C7 at the spec's missing-module scenario:
modules `{"pkg.a": …}`, request `"pkg.b"`. -/
theorem missing_module_error_witness :
    lookupModule ⟨[("pkg.a", ⟨none, []⟩)], false⟩ "pkg.b" = none ∧
    (runModule ⟨[("pkg.a", ⟨none, []⟩)], false⟩ "pkg.b" (fun _ => []) =
      [.elem "error" []
        [.elem "paragraph" [] [.text ("Module not found: " ++ "pkg.b")]]] ∧
    "pkg.b".data <:+: ("Module not found: " ++ "pkg.b").data) :=
  ⟨rfl, missing_module_error ⟨[("pkg.a", ⟨none, []⟩)], false⟩ "pkg.b"
    (fun _ => []) rfl⟩

/-! ## C10: unknown default-value kinds -/

/-- C10: for a `DefaultValue` whose kind discriminator is neither
`'Simple'` nor `'Expression'`, `_build_default_value` falls through to
a single plain-text node carrying the string representation of the
whole value. -/
theorem unknown_kind_fallback (dv : DefaultValue)
    (h1 : dv.kind ≠ some "Simple") (h2 : dv.kind ≠ some "Expression") :
    buildDefaultValue dv = .text dv.repr ∧
    nodeText (buildDefaultValue dv) = dv.repr := by
  have hb : buildDefaultValue dv = .text dv.repr := by
    simp only [buildDefaultValue, if_neg h1, if_neg h2]
  exact ⟨hb, by rw [hb]; rfl⟩

/-- Witness for C10 on a concrete unknown-kind value. -/
theorem unknown_kind_fallback_witness :
    buildDefaultValue ⟨some "Future", "", "", [], "unknown-default-value-repr"⟩ =
      .text "unknown-default-value-repr" ∧
    nodeText (buildDefaultValue
        ⟨some "Future", "", "", [], "unknown-default-value-repr"⟩) =
      "unknown-default-value-repr" :=
  unknown_kind_fallback ⟨some "Future", "", "", [], "unknown-default-value-repr"⟩
    (by decide) (by decide)

/-! ## C6: special constants always render as plain text -/

theorem classify_special (name : String) (h : isSpecialConstant name = true) :
    classifyName name = .text name := by
  simp [classifyName, h]

theorem classify_linked_not_special (name : String)
    (h : isLinkedSpan (classifyName name) = true) :
    isSpecialConstant name = false ∧ nodeText (classifyName name) = name := by
  by_cases hs : isSpecialConstant name
  · rw [classify_special name hs] at h
    simp [isLinkedSpan] at h
  · refine ⟨by simpa using hs, ?_⟩
    unfold classifyName at h ⊢
    simp only [hs, Bool.false_eq_true, if_false] at h ⊢
    by_cases hdot : pyHasChar name '.'
    · simp only [hdot, if_true] at h ⊢
      rcases hfm : findModule (pySplitDots name) with _ | k
      · simp [hfm, isLinkedSpan] at h
      · simp only [hfm] at h ⊢
        by_cases hb : dotJoin ((pySplitDots name).take k) = "builtins"
        · simp [hb, isLinkedSpan] at h
        · simp [hb, nodeText, nodesText]
    · simp only [hdot, Bool.false_eq_true, if_false] at h ⊢
      by_cases h1 : name ∈ bareBuiltins
      · simp [h1, isLinkedSpan] at h
      · by_cases h2 : name ∈ typingDataNames
        · simp [h1, h2, nodeText, nodesText]
        · by_cases h3 : name ∈ bareTypingClassNames
          · simp [h1, h2, h3, nodeText, nodesText]
          · by_cases h4 : name ∈ bareAbcNames
            · simp [h1, h2, h3, h4, nodeText, nodesText]
            · simp [h1, h2, h3, h4, isLinkedSpan] at h

theorem parseFuel_linked_not_special (d : Nat) :
    ∀ (l : List Char) (n : DocNode), n ∈ parseFuel d l →
      isLinkedSpan n = true → isSpecialConstant (nodeText n) = false := by
  induction d with
  | zero =>
    intro l n hn
    cases l with
    | nil => simp [parseFuel] at hn
    | cons c rest => simp [parseFuel] at hn
  | succ d ih =>
    intro l n hn hlink
    cases l with
    | nil => simp [parseFuel] at hn
    | cons c rest =>
      by_cases hws : c.isWhitespace
      · simp only [parseFuel, hws, if_true, List.mem_cons] at hn
        rcases hn with rfl | hn
        · simp [isLinkedSpan] at hlink
        · exact ih rest n hn hlink
      · by_cases hsep : isSepChar c
        · simp only [parseFuel, hws, hsep, Bool.false_eq_true, if_false,
            if_true, List.mem_cons] at hn
          rcases hn with rfl | hn
          · simp [isLinkedSpan] at hlink
          · exact ih rest n hn hlink
        · by_cases hid : isIdentStart c
          · simp only [parseFuel, hws, hsep, hid, Bool.false_eq_true,
              if_false, if_true, List.mem_cons] at hn
            rcases hn with rfl | hn
            · obtain ⟨-, hname⟩ := classify_linked_not_special _ hlink
              rw [hname]
              have := classify_linked_not_special _ hlink
              simpa [hname] using this.1
            · exact ih _ n hn hlink
          · simp only [parseFuel, hws, hsep, hid, Bool.false_eq_true,
              if_false, List.mem_cons] at hn
            rcases hn with rfl | hn
            · simp [isLinkedSpan] at hlink
            · exact ih rest n hn hlink

/-- C6: an identifier equal to a special constant name (`None`, `True`,
`False`) is always classified as plain text, and no linked span ever
emitted by the string type parser carries a special constant name. -/
theorem special_constants_plain :
    (∀ name, isSpecialConstant name = true → classifyName name = .text name) ∧
    (∀ (l : List Char) (n : DocNode), n ∈ parseRecursive l →
      isLinkedSpan n = true → isSpecialConstant (nodeText n) = false) :=
  ⟨classify_special,
   fun l n hn => parseFuel_linked_not_special l.length l n hn⟩

/-- Witness for C6: `"None"` classifies to plain text, and the linked
span the parser emits for `"numpy.ndarray"` does not carry a special
constant name. -/
theorem special_constants_plain_witness :
    classifyName "None" = .text "None" ∧
    isSpecialConstant (nodeText (classifyName "numpy.ndarray")) = false :=
  ⟨special_constants_plain.1 "None" rfl,
   special_constants_plain.2 "numpy.ndarray".data
     (classifyName "numpy.ndarray")
     (by rw [show parseRecursive "numpy.ndarray".data =
         [classifyName "numpy.ndarray"] from rfl]
         exact List.mem_singleton.mpr rfl)
     rfl⟩

/-! ## C5: dotted names pick the longest matching module prefix -/

theorem findModuleK_some_spec (parts : List String) :
    ∀ K k, findModuleK K parts = some k →
      1 ≤ k ∧ k ≤ K ∧ dotJoin (parts.take k) ∈ externalModules ∧
      ∀ j, k < j → j ≤ K → dotJoin (parts.take j) ∉ externalModules := by
  intro K
  induction K with
  | zero => intro k h; simp [findModuleK] at h
  | succ K ih =>
    intro k h
    by_cases hm : dotJoin (parts.take (K + 1)) ∈ externalModules
    · simp only [findModuleK, if_pos hm, Option.some.injEq] at h
      subst h
      exact ⟨Nat.succ_le_succ (Nat.zero_le K), Nat.le_refl _, hm,
        fun j hj1 hj2 => absurd hj2 (Nat.not_le.mpr hj1)⟩
    · simp only [findModuleK, if_neg hm] at h
      obtain ⟨h1, h2, h3, h4⟩ := ih k h
      refine ⟨h1, Nat.le_succ_of_le h2, h3, fun j hj1 hj2 => ?_⟩
      rcases Nat.lt_or_ge j (K + 1) with hj | hj
      · exact h4 j hj1 (Nat.lt_succ_iff.mp hj)
      · have : j = K + 1 := Nat.le_antisymm hj2 hj
        subst this
        exact hm

theorem findModuleK_none_spec (parts : List String) :
    ∀ K, findModuleK K parts = none →
      ∀ j, 1 ≤ j → j ≤ K → dotJoin (parts.take j) ∉ externalModules := by
  intro K
  induction K with
  | zero => intro _ j hj1 hj2; omega
  | succ K ih =>
    intro h j hj1 hj2
    by_cases hm : dotJoin (parts.take (K + 1)) ∈ externalModules
    · simp [findModuleK, if_pos hm] at h
    · simp only [findModuleK, if_neg hm] at h
      rcases Nat.lt_or_ge j (K + 1) with hj | hj
      · exact ih h j hj1 (Nat.lt_succ_iff.mp hj)
      · have : j = K + 1 := Nat.le_antisymm hj2 hj
        subst this
        exact hm

theorem special_has_no_dot (name : String)
    (h : isSpecialConstant name = true) : pyHasChar name '.' = false := by
  have hmem : name = "None" ∨ name = "True" ∨ name = "False" := by
    simpa [isSpecialConstant] using h
  rcases hmem with rfl | rfl | rfl <;> decide

/-- C5: for a dotted input name, the classifier picks the matching
external-module prefix with the greatest number of leading components;
if that module is the catch-all `builtins` module the whole name stays
plain text; otherwise the last name component selects the reftype per
the module's lookup rule; and when no prefix matches, the name stays
plain text. -/
theorem classifier_dotted_longest_module (name : String)
    (hdot : pyHasChar name '.' = true) :
    (∀ k, findModule (pySplitDots name) = some k →
      (1 ≤ k ∧ k ≤ (pySplitDots name).length ∧
       dotJoin ((pySplitDots name).take k) ∈ externalModules ∧
       ∀ j, k < j → j ≤ (pySplitDots name).length →
         dotJoin ((pySplitDots name).take j) ∉ externalModules) ∧
      (dotJoin ((pySplitDots name).take k) = "builtins" →
        classifyName name = .text name) ∧
      (dotJoin ((pySplitDots name).take k) ≠ "builtins" →
        classifyName name =
          .xref
            (if dotJoin ((pySplitDots name).take k) = "typing" ∧
                (pySplitDots name).getLastD "" ∈ typingDataNames
             then "data" else "class")
            name false [.elem "literal" [] [.text name]])) ∧
    (findModule (pySplitDots name) = none →
      (∀ j, 1 ≤ j → j ≤ (pySplitDots name).length →
        dotJoin ((pySplitDots name).take j) ∉ externalModules) ∧
      classifyName name = .text name) := by
  have hs : isSpecialConstant name = false := by
    by_contra hc
    have := special_has_no_dot name (by simpa using Bool.not_eq_false _ ▸ hc)
    rw [hdot] at this
    exact Bool.true_eq_false.mp this
  constructor
  · intro k hk
    refine ⟨findModuleK_some_spec (pySplitDots name) _ k hk, ?_, ?_⟩
    · intro hb
      unfold classifyName
      simp only [hs, Bool.false_eq_true, if_false, hdot, if_true, hk, hb,
        if_pos]
    · intro hb
      unfold classifyName
      simp only [hs, Bool.false_eq_true, if_false, hdot, if_true, hk,
        if_neg hb]
      by_cases ht : dotJoin ((pySplitDots name).take k) = "typing"
      · by_cases hd : (pySplitDots name).getLastD "" ∈ typingDataNames
        · simp [ht, hd]
        · simp [ht, hd]
      · simp [ht]
  · intro hk
    refine ⟨findModuleK_none_spec (pySplitDots name) _ hk, ?_⟩
    unfold classifyName
    simp only [hs, Bool.false_eq_true, if_false, hdot, if_true, hk]

/-- Witness for C5 at `"collections.abc.Sequence"`: both the 1- and
2-component prefixes are known external modules and the classifier
picks the longer one, yielding a class-category link. -/
theorem classifier_dotted_longest_module_witness :
    findModule (pySplitDots "collections.abc.Sequence") = some 2 ∧
    dotJoin ((pySplitDots "collections.abc.Sequence").take 1) ∈
      externalModules ∧
    dotJoin ((pySplitDots "collections.abc.Sequence").take 2) ∈
      externalModules ∧
    classifyName "collections.abc.Sequence" =
      .xref "class" "collections.abc.Sequence" false
        [.elem "literal" [] [.text "collections.abc.Sequence"]] := by
  refine ⟨rfl, by decide, by decide, ?_⟩
  have h :=
    ((classifier_dotted_longest_module "collections.abc.Sequence" rfl).1 2
      rfl).2.2 (by decide)
  exact h.trans (by rw [if_neg (by decide)])

/-! ## Rendering structure of the type tree renderer -/

theorem buildSeq_false_cons (sep : String) (x : DocNode) :
    ∀ ts : List TypeExpr,
      x :: buildSeq sep false ts =
        List.intersperse (.text sep) (x :: ts.map buildTypeExpr) := by
  intro ts
  induction ts generalizing x with
  | nil => simp [buildSeq, List.intersperse]
  | cons t rest ih =>
    simp only [buildSeq]
    rw [if_neg (by decide), List.singleton_append, List.map_cons,
      List.intersperse_cons_cons]
    rw [← ih (buildTypeExpr t)]

theorem buildSeq_true (sep : String) (ts : List TypeExpr) :
    buildSeq sep true ts =
      List.intersperse (.text sep) (ts.map buildTypeExpr) := by
  cases ts with
  | nil => simp [buildSeq]
  | cons t rest =>
    simp only [buildSeq, if_pos, List.nil_append]
    exact buildSeq_false_cons sep (buildTypeExpr t) rest

theorem buildTypeExpr_ne_text (t : TypeExpr) (s : String) :
    buildTypeExpr t ≠ .text s := by
  intro h
  rcases t with ⟨d, lt, cs⟩
  rcases lt with _ | l <;> rcases cs with _ | ⟨c, cs⟩
  · simp [buildTypeExpr, parseAndLinkType] at h
  · rw [buildTypeExpr] at h
    split at h <;>
      simp [buildUnionType, buildGenericWithChildren, parseAndLinkType] at h
  · simp [buildTypeExpr] at h
  · simp [buildTypeExpr, buildGenericWithChildren] at h

theorem isTextNode_buildTypeExpr (s : String) (t : TypeExpr) :
    isTextNode s (buildTypeExpr t) = false := by
  cases hn : buildTypeExpr t with
  | text t' => exact absurd hn (buildTypeExpr_ne_text t t')
  | xref a b c d => rfl
  | elem a b c => rfl
  | indexNode a => rfl

/-! ## C2: children without a link render as union iff `'|'` occurs -/

/-- C2 (amended): for a `TypeExpression` with children and no link
target, the renderer emits the union form (children joined by `" | "`,
no brackets) iff the display string contains the character `'|'`
(the code tests `'|' in display`, not the two-sided separator
`" | "`); otherwise it emits the generic form with the base name
resolved by the string type parser. -/
theorem typeExpr_children_no_link_render (display : String) (c : TypeExpr)
    (cs : List TypeExpr) :
    buildTypeExpr (.mk display none (c :: cs)) =
      if pyHasChar display '|' then
        .elem "inline" []
          (List.intersperse (.text " | ") ((c :: cs).map buildTypeExpr))
      else
        .elem "inline" []
          (parseAndLinkType (baseNameOf display) :: .text "[" ::
            (List.intersperse (.text ", ") ((c :: cs).map buildTypeExpr) ++
              [.text "]"])) := by
  by_cases h : pyHasChar display '|'
  · simp only [buildTypeExpr, h, if_true, buildUnionType, buildSeq_true]
  · simp only [buildTypeExpr, h, Bool.false_eq_true, if_false,
      buildGenericWithChildren, buildSeq_true]

/-- C2 counterexample: for `display = "A|B"` (which contains `'|'` but
not the separator `" | "`) with children and no link, the code renders
the union form, not the generic form the claim requires. -/
theorem typeExpr_union_char_counterexample :
    ¬ (" | ".data <:+: "A|B".data) ∧
    buildTypeExpr (.mk "A|B" none [.mk "A" none [], .mk "B" none []]) =
      .elem "inline" []
        [.elem "inline" [] [.text "A"], .text " | ",
         .elem "inline" [] [.text "B"]] ∧
    buildTypeExpr (.mk "A|B" none [.mk "A" none [], .mk "B" none []]) ≠
      .elem "inline" []
        (parseAndLinkType (baseNameOf "A|B") :: .text "[" ::
          (List.intersperse (.text ", ")
            ([TypeExpr.mk "A" none [], .mk "B" none []].map buildTypeExpr) ++
            [.text "]"])) := by
  have hU : buildTypeExpr (.mk "A|B" none [.mk "A" none [], .mk "B" none []]) =
      .elem "inline" []
        [.elem "inline" [] [.text "A"], .text " | ",
         .elem "inline" [] [.text "B"]] := by
    simp [buildTypeExpr, buildUnionType, buildSeq, parseAndLinkType,
      parseRecursive, parseFuel, classifyName, isSpecialConstant, pyHasChar,
      isSepChar, isIdentStart, isIdentCont, bareBuiltins, typingDataNames,
      bareTypingClassNames, bareAbcNames]
  refine ⟨by decide, hU, ?_⟩
  intro h
  rw [hU] at h
  simp [buildTypeExpr, parseAndLinkType, parseRecursive, parseFuel,
    classifyName, isSpecialConstant, pyHasChar, isSepChar, isIdentStart,
    isIdentCont, bareBuiltins, typingDataNames, bareTypingClassNames,
    bareAbcNames, baseNameOf, splitOnChar, List.intersperse] at h

/-! ## C9: bracket balance of the generic rendering -/

theorem countP_intersperse_zero (p : DocNode → Bool) (sep : DocNode)
    (hsep : p sep = false) :
    ∀ l : List DocNode, (∀ x ∈ l, p x = false) →
      (List.intersperse sep l).countP p = 0 := by
  intro l
  induction l with
  | nil => intro _; rfl
  | cons x rest ih =>
    intro hl
    cases rest with
    | nil => simp [List.intersperse, List.countP_cons, hl x (by simp)]
    | cons y zs =>
      rw [List.intersperse_cons_cons]
      simp only [List.countP_cons, hsep, hl x (by simp), if_false,
        Nat.add_zero]
      exact ih (fun z hz => hl z (List.mem_cons_of_mem x hz))

theorem countP_intersperse_sep (p : DocNode → Bool) (sep : DocNode)
    (hsep : p sep = true) :
    ∀ l : List DocNode, (∀ x ∈ l, p x = false) →
      (List.intersperse sep l).countP p = l.length - 1 := by
  intro l
  induction l with
  | nil => intro _; rfl
  | cons x rest ih =>
    intro hl
    cases rest with
    | nil => simp [List.intersperse, List.countP_cons, hl x (by simp)]
    | cons y zs =>
      rw [List.intersperse_cons_cons]
      simp only [List.countP_cons, hsep, hl x (by simp), if_false, if_true,
        Nat.add_zero]
      rw [ih (fun z hz => hl z (List.mem_cons_of_mem x hz))]
      simp [Nat.succ_sub_one]

theorem isTextNode_genericBase (s display : String) (lt : Option LinkTarget) :
    isTextNode s (genericBase display lt) = false := by
  cases lt <;> rfl

/-- C9 (amended): for a `TypeExpression` with children whose display
contains no `'|'` character, the rendered container's direct children
are the base node, exactly one `"["` immediately after it, the
recursively rendered children joined by exactly `len(children) - 1`
separators `", "`, and exactly one trailing `"]"`. -/
theorem generic_bracket_balance (display : String) (lt : Option LinkTarget)
    (c : TypeExpr) (cs : List TypeExpr)
    (h : pyHasChar display '|' = false) :
    topChildren (buildTypeExpr (.mk display lt (c :: cs))) =
      genericBase display lt :: .text "[" ::
        (List.intersperse (.text ", ") ((c :: cs).map buildTypeExpr) ++
          [.text "]"]) ∧
    (topChildren (buildTypeExpr (.mk display lt (c :: cs)))).countP
        (isTextNode "[") = 1 ∧
    (topChildren (buildTypeExpr (.mk display lt (c :: cs)))).countP
        (isTextNode "]") = 1 ∧
    (topChildren (buildTypeExpr (.mk display lt (c :: cs)))).countP
        (isTextNode ", ") = (c :: cs).length - 1 ∧
    (topChildren (buildTypeExpr (.mk display lt (c :: cs)))).getLast? =
      some (.text "]") := by
  have hch : ∀ s : String, ∀ x ∈ (c :: cs).map buildTypeExpr,
      isTextNode s x = false := by
    intro s x hx
    obtain ⟨t, _, rfl⟩ := List.mem_map.mp hx
    exact isTextNode_buildTypeExpr s t
  have hts : topChildren (buildTypeExpr (.mk display lt (c :: cs))) =
      genericBase display lt :: .text "[" ::
        (List.intersperse (.text ", ") ((c :: cs).map buildTypeExpr) ++
          [.text "]"]) := by
    cases lt with
    | some l =>
      simp only [buildTypeExpr, buildGenericWithChildren, buildSeq_true,
        topChildren, genericBase]
    | none =>
      simp only [buildTypeExpr, h, Bool.false_eq_true, if_false,
        buildGenericWithChildren, buildSeq_true, topChildren, genericBase]
  rw [hts]
  refine ⟨rfl, ?_, ?_, ?_, ?_⟩
  · simp only [List.countP_cons, List.countP_append,
      countP_intersperse_zero (isTextNode "[") (.text ", ") (by decide) _
        (hch "["),
      isTextNode_genericBase]
    decide
  · simp only [List.countP_cons, List.countP_append,
      countP_intersperse_zero (isTextNode "]") (.text ", ") (by decide) _
        (hch "]"),
      isTextNode_genericBase]
    decide
  · simp only [List.countP_cons, List.countP_append,
      countP_intersperse_sep (isTextNode ", ") (.text ", ") (by decide) _
        (hch ", "),
      isTextNode_genericBase]
    rw [show (isTextNode ", " (DocNode.text "]")) = false from rfl,
      show (isTextNode ", " (DocNode.text "[")) = false from rfl]
    simp
  · rw [show genericBase display lt :: DocNode.text "[" ::
        (List.intersperse (DocNode.text ", ") ((c :: cs).map buildTypeExpr) ++
          [DocNode.text "]"]) =
      (genericBase display lt :: DocNode.text "[" ::
        List.intersperse (DocNode.text ", ") ((c :: cs).map buildTypeExpr)) ++
          [DocNode.text "]"] from by simp]
    exact List.getLast?_concat _

/-- Witness for C9 on `MyBox[int]` with a linked base and one child. -/
theorem generic_bracket_balance_witness :
    pyHasChar "MyBox[int]" '|' = false ∧
    (topChildren (buildTypeExpr (.mk "MyBox[int]"
        (some ⟨"Class", "pkg.MyBox", false⟩) [.mk "int" none []]))).countP
      (isTextNode "[") = 1 ∧
    (topChildren (buildTypeExpr (.mk "MyBox[int]"
        (some ⟨"Class", "pkg.MyBox", false⟩) [.mk "int" none []]))).countP
      (isTextNode "]") = 1 ∧
    (topChildren (buildTypeExpr (.mk "MyBox[int]"
        (some ⟨"Class", "pkg.MyBox", false⟩) [.mk "int" none []]))).countP
      (isTextNode ", ") = 0 ∧
    (topChildren (buildTypeExpr (.mk "MyBox[int]"
        (some ⟨"Class", "pkg.MyBox", false⟩) [.mk "int" none []]))).getLast? =
      some (.text "]") := by
  have h := generic_bracket_balance "MyBox[int]"
    (some ⟨"Class", "pkg.MyBox", false⟩) (.mk "int" none []) [] rfl
  exact ⟨rfl, h.2.1, h.2.2.1, h.2.2.2.1, h.2.2.2.2⟩

/-- C9 counterexample: for `display = "X|Y"` with children and no link,
the display contains no `" | "` separator, yet the rendering is the
bracket-free union form: it has no `"["` at all instead of exactly
one. -/
theorem generic_bracket_union_sep_counterexample :
    ¬ (" | ".data <:+: "X|Y".data) ∧
    (TypeExpr.mk "X|Y" none [.mk "X" none [], .mk "Y" none []]).children ≠
      [] ∧
    (topChildren (buildTypeExpr
        (.mk "X|Y" none [.mk "X" none [], .mk "Y" none []]))).countP
      (isTextNode "[") = 0 := by
  refine ⟨by decide, by simp [TypeExpr.children], ?_⟩
  rw [show buildTypeExpr (.mk "X|Y" none [.mk "X" none [], .mk "Y" none []]) =
      .elem "inline" []
        [.elem "inline" [] [.text "X"], .text " | ",
         .elem "inline" [] [.text "Y"]] from by
    simp [buildTypeExpr, buildUnionType, buildSeq, parseAndLinkType,
      parseRecursive, parseFuel, classifyName, isSpecialConstant, pyHasChar,
      isSepChar, isIdentStart, isIdentCont, bareBuiltins, typingDataNames,
      bareTypingClassNames, bareAbcNames]]
  rfl

/-! ## C1/C3: the default value reconstructor -/

theorem string_eq_of_data {a b : String} (h : a.data = b.data) : a = b := by
  cases a; cases b; cases h; rfl

theorem string_append_empty (s : String) : s ++ "" = s :=
  string_eq_of_data (by rw [string_data_append]; exact List.append_nil _)

theorem string_empty_append (s : String) : "" ++ s = s :=
  string_eq_of_data (by rw [string_data_append]; rfl)

theorem string_length_data (s : String) : s.length = s.data.length := rfl

theorem string_ne_empty_len {s : String} (h : s ≠ "") : 1 ≤ s.length := by
  rcases s with ⟨_ | ⟨c, cs⟩⟩
  · exact absurd rfl h
  · exact Nat.succ_le_succ (Nat.zero_le _)

theorem pySlice_refl (s : String) (a : Nat) : pySlice s a a = "" := by
  simp [pySlice]

theorem pySlice_full (s : String) : pySlice s 0 s.length = s := by
  rcases s with ⟨d⟩
  exact string_eq_of_data (by simp [pySlice, string_length_data])

theorem pySlice_glue (s : String) (a b c : Nat) (hab : a ≤ b) (hbc : b ≤ c) :
    pySlice s a b ++ pySlice s b c = pySlice s a c := by
  refine string_eq_of_data ?_
  rw [string_data_append]
  show (s.data.drop a).take (b - a) ++ (s.data.drop b).take (c - b) =
    (s.data.drop a).take (c - a)
  rw [show s.data.drop b = (s.data.drop a).drop (b - a) from by
    rw [List.drop_drop]; congr 1; omega]
  rw [← List.take_add]
  congr 1
  omega

/-- In-range references whose text matches the slice fit inside the
display. -/
theorem ref_end_le_length (s : String) (r : TypeRef)
    (ho : r.offset < s.length)
    (hm : r.text = pySlice s r.offset (r.offset + r.text.length)) :
    r.offset + r.text.length ≤ s.length := by
  have hl := congrArg String.length hm
  rw [string_length_data, string_length_data] at hl
  simp only [pySlice, List.length_take, List.length_drop] at hl
  have h5 : r.text.data.length ≤ s.data.length - r.offset :=
    le_of_eq_of_le hl (Nat.min_le_right _ _)
  rw [string_length_data] at ho
  show r.offset + r.text.data.length ≤ s.data.length
  omega

theorem disjointRefs_symm {a b : TypeRef} (h : disjointRefs a b) :
    disjointRefs b a := h.symm

theorem pairwise_refChain (l : List TypeRef)
    (hsort : l.Pairwise refGE) (hdisj : l.Pairwise disjointRefs)
    (hlen : ∀ r ∈ l, 1 ≤ r.text.length) : l.Pairwise refChain := by
  induction l with
  | nil => exact List.Pairwise.nil
  | cons a l ih =>
    rcases hsort with _ | ⟨ha_sort, hsort'⟩
    rcases hdisj with _ | ⟨ha_disj, hdisj'⟩
    refine List.Pairwise.cons (fun b hb => ?_)
      (ih hsort' hdisj' (fun r hr => hlen r (List.mem_cons_of_mem a hr)))
    have h1 := ha_sort b hb
    have h2 := ha_disj b hb
    have h3 := hlen a (List.mem_cons_self a l)
    have h4 := hlen b (List.mem_cons_of_mem a hb)
    rcases h2 with h2 | h2
    · exact absurd h1 (by unfold refGE; omega)
    · exact h2

theorem chainBelow_of_pairwise :
    ∀ (l : List TypeRef) (L : Nat), l.Pairwise refChain →
      (∀ r ∈ l, r.offset + r.text.length ≤ L) → chainBelow L l := by
  intro l
  induction l with
  | nil => intro L _ _; trivial
  | cons r rs ih =>
    intro L hp hb
    rcases hp with _ | ⟨hr, hp'⟩
    exact ⟨hb r (List.mem_cons_self r rs),
      ih r.offset hp' (fun b hbmem => hr b hbmem)⟩

theorem nodeText_refFragment (r : TypeRef) :
    nodeText (refFragment r) = r.text := by
  unfold refFragment
  cases r.link_target with
  | none => rfl
  | some lt =>
    unfold buildLinkFromTarget
    by_cases h : lt.attr <;>
      simp [h, nodeText, nodesText, string_append_empty]

/-- Invariant of the `for ref in sorted(...)` fold: the accumulated
fragments spell exactly the slice of `display` from the final
`last_pos` to the initial one. -/
theorem dvFold_spec (expr : String) :
    ∀ (l : List TypeRef) (L : Nat) (ns : List DocNode),
      chainBelow L l →
      (∀ r ∈ l, r.text = pySlice expr r.offset (r.offset + r.text.length)) →
      nodesText (l.foldl (dvStep expr) (ns, L)).1 =
        pySlice expr (l.foldl (dvStep expr) (ns, L)).2 L ++ nodesText ns ∧
      (l.foldl (dvStep expr) (ns, L)).2 ≤ L := by
  intro l
  induction l with
  | nil =>
    intro L ns _ _
    simp [List.foldl, pySlice_refl, string_empty_append]
  | cons r rs ih =>
    intro L ns hcb hm
    obtain ⟨hrL, hcb'⟩ := hcb
    have hrm := hm r (List.mem_cons_self r rs)
    have hm' : ∀ x ∈ rs, x.text = pySlice expr x.offset (x.offset + x.text.length) :=
      fun x hx => hm x (List.mem_cons_of_mem r hx)
    rw [List.foldl_cons]
    have hstep : dvStep expr (ns, L) r =
        (refFragment r ::
          (if r.offset + r.text.length < L then
            DocNode.text (pySlice expr (r.offset + r.text.length) L) :: ns
          else ns), r.offset) := rfl
    rw [hstep]
    obtain ⟨ih1, ih2⟩ := ih r.offset
      (refFragment r ::
        (if r.offset + r.text.length < L then
          DocNode.text (pySlice expr (r.offset + r.text.length) L) :: ns
        else ns)) hcb' hm'
    refine ⟨?_, Nat.le_trans ih2 (by omega)⟩
    rw [ih1]
    have hinner : nodesText (refFragment r ::
        (if r.offset + r.text.length < L then
          DocNode.text (pySlice expr (r.offset + r.text.length) L) :: ns
        else ns)) =
        pySlice expr r.offset L ++ nodesText ns := by
      by_cases hlt : r.offset + r.text.length < L
      · rw [if_pos hlt]
        show nodeText (refFragment r) ++
          (nodeText (DocNode.text (pySlice expr (r.offset + r.text.length) L)) ++
            nodesText ns) = _
        rw [nodeText_refFragment]
        show r.text ++ (pySlice expr (r.offset + r.text.length) L ++ nodesText ns) = _
        rw [← String.append_assoc]
        have step1 :
            r.text ++ pySlice expr (r.offset + r.text.length) L =
              pySlice expr r.offset L :=
          (congrArg (fun z => z ++ pySlice expr (r.offset + r.text.length) L)
            hrm).trans
            (pySlice_glue expr r.offset (r.offset + r.text.length) L
              (by omega) (by omega))
        rw [step1]
      · rw [if_neg hlt]
        have hEq : r.offset + r.text.length = L := by omega
        show nodeText (refFragment r) ++ nodesText ns = _
        rw [nodeText_refFragment]
        have step1 : r.text = pySlice expr r.offset L := by
          conv_rhs => rw [← hEq]
          exact hrm
        rw [step1]
    rw [hinner, ← String.append_assoc,
      pySlice_glue expr _ r.offset L ih2 (by omega)]

/-- C1 (amended): for an `Expression` default value whose references
are in range, non-overlapping, have non-empty text, and whose text
equals the display substring at their offset, the reconstructed
fragments concatenate to exactly `display`. -/
theorem default_value_roundtrip (dv : DefaultValue)
    (hk : dv.kind = some "Expression")
    (h1 : ∀ r ∈ dv.type_refs, r.offset < dv.display.length)
    (h2 : ∀ r ∈ dv.type_refs,
      r.text = pySlice dv.display r.offset (r.offset + r.text.length))
    (h3 : dv.type_refs.Pairwise disjointRefs)
    (h4 : ∀ r ∈ dv.type_refs, r.text ≠ "") :
    nodeText (buildDefaultValue dv) = dv.display := by
  have hb : buildDefaultValue dv =
      .elem "inline" ["default_value"]
        (buildExprFrags dv.display dv.type_refs) := by
    unfold buildDefaultValue
    rw [hk, if_neg (by decide), if_pos rfl]
  rw [hb]
  show nodesText (buildExprFrags dv.display dv.type_refs) = dv.display
  simp only [buildExprFrags]
  set expr := dv.display with hexpr
  set sorted := List.insertionSort refGE dv.type_refs with hsortedDef
  have hperm : sorted.Perm dv.type_refs :=
    List.perm_insertionSort refGE dv.type_refs
  have hsorted : List.Pairwise refGE sorted :=
    List.sorted_insertionSort refGE dv.type_refs
  have hmem : ∀ r ∈ sorted, r ∈ dv.type_refs := fun r hr => hperm.mem_iff.mp hr
  have hlen : ∀ r ∈ sorted, 1 ≤ r.text.length := fun r hr =>
    string_ne_empty_len (h4 r (hmem r hr))
  have hm : ∀ r ∈ sorted,
      r.text = pySlice expr r.offset (r.offset + r.text.length) :=
    fun r hr => h2 r (hmem r hr)
  have hdisj : sorted.Pairwise disjointRefs :=
    (hperm.pairwise_iff (fun h => disjointRefs_symm h)).mpr h3
  have hchain : sorted.Pairwise refChain :=
    pairwise_refChain sorted hsorted hdisj hlen
  have hbound : ∀ r ∈ sorted, r.offset + r.text.length ≤ expr.length :=
    fun r hr => ref_end_le_length expr r (h1 r (hmem r hr)) (hm r hr)
  have hcb : chainBelow expr.length sorted :=
    chainBelow_of_pairwise sorted expr.length hchain hbound
  obtain ⟨hf1, hf2⟩ := dvFold_spec expr sorted expr.length [] hcb hm
  by_cases hpos : 0 < (sorted.foldl (dvStep expr) ([], expr.length)).2
  · rw [if_pos hpos]
    show pySlice expr 0 (sorted.foldl (dvStep expr) ([], expr.length)).2 ++
      nodesText (sorted.foldl (dvStep expr) ([], expr.length)).1 = expr
    rw [hf1, show nodesText ([] : List DocNode) = "" from rfl,
      string_append_empty]
    rw [pySlice_glue expr 0 _ expr.length (Nat.zero_le _) hf2, pySlice_full]
  · rw [if_neg hpos]
    rw [hf1, show nodesText ([] : List DocNode) = "" from rfl,
      string_append_empty]
    have h0 : (sorted.foldl (dvStep expr) ([], expr.length)).2 = 0 := by omega
    rw [h0, pySlice_full]

/-- Witness for C1 on the spec's example
`Expression{display="C.C1(5)", type_refs=[{offset:0, text:"C.C1",
link_target:{kind:Class, fqn:"pkg.C", attribute:true}}]}`. -/
theorem default_value_roundtrip_witness :
    nodeText (buildDefaultValue
      ⟨some "Expression", "", "C.C1(5)",
        [⟨0, "C.C1", some ⟨"Class", "pkg.C", true⟩⟩], ""⟩) = "C.C1(5)" :=
  default_value_roundtrip
    ⟨some "Expression", "", "C.C1(5)",
      [⟨0, "C.C1", some ⟨"Class", "pkg.C", true⟩⟩], ""⟩
    rfl (by decide) (by decide)
    (List.pairwise_singleton disjointRefs _) (by decide)

/-- C1 counterexample (the claim as stated, without the non-empty-text
requirement, fails): for `display = "ab"` with an empty-text reference
at offset 0 followed by a reference for the whole string, all stated
hypotheses hold — offsets in `[0, len)`, texts equal to the display
substrings at their offsets, pairwise disjoint regions — yet the
fragments concatenate to `"abab" ≠ "ab"`. -/
theorem default_value_roundtrip_counterexample :
    (∀ r ∈ ([⟨0, "", none⟩, ⟨0, "ab", none⟩] : List TypeRef),
      r.offset < ("ab" : String).length) ∧
    (∀ r ∈ ([⟨0, "", none⟩, ⟨0, "ab", none⟩] : List TypeRef),
      r.text = pySlice "ab" r.offset (r.offset + r.text.length)) ∧
    ([⟨0, "", none⟩, ⟨0, "ab", none⟩] : List TypeRef).Pairwise
      disjointRefs ∧
    nodeText (buildDefaultValue
      ⟨some "Expression", "", "ab", [⟨0, "", none⟩, ⟨0, "ab", none⟩], ""⟩) =
      "abab" ∧
    nodeText (buildDefaultValue
      ⟨some "Expression", "", "ab", [⟨0, "", none⟩, ⟨0, "ab", none⟩], ""⟩) ≠
      "ab" := by
  refine ⟨by decide, by decide, ?_, by decide, by decide⟩
  refine List.Pairwise.cons (fun b hb => ?_) (List.pairwise_singleton _ _)
  rcases List.mem_singleton.mp hb with rfl
  exact Or.inl (by decide)

/-! ## C3: malformed offsets never raise, but refs are never dropped -/

theorem dvFold_mem_mono (expr : String) :
    ∀ (l : List TypeRef) (st : List DocNode × Nat) (f : DocNode),
      f ∈ st.1 → f ∈ (l.foldl (dvStep expr) st).1 := by
  intro l
  induction l with
  | nil => intro st f hf; exact hf
  | cons r rs ih =>
    intro st f hf
    rw [List.foldl_cons]
    refine ih _ f ?_
    show f ∈ refFragment r ::
      (if r.offset + r.text.length < st.2 then
        DocNode.text (pySlice expr (r.offset + r.text.length) st.2) :: st.1
      else st.1)
    by_cases hlt : r.offset + r.text.length < st.2
    · rw [if_pos hlt]
      exact List.mem_cons_of_mem _ (List.mem_cons_of_mem _ hf)
    · rw [if_neg hlt]
      exact List.mem_cons_of_mem _ hf

theorem dvFold_mem_ref (expr : String) :
    ∀ (l : List TypeRef) (st : List DocNode × Nat) (r : TypeRef),
      r ∈ l → refFragment r ∈ (l.foldl (dvStep expr) st).1 := by
  intro l
  induction l with
  | nil => intro st r hr; cases hr
  | cons a rs ih =>
    intro st r hr
    rw [List.foldl_cons]
    rcases List.mem_cons.mp hr with rfl | hr'
    · refine dvFold_mem_mono expr rs _ _ ?_
      exact List.mem_cons_self _ _
    · exact ih _ r hr'

/-- C3 (amended): for an `Expression` default value with arbitrary —
possibly out-of-range or overlapping — references, the reconstructor is
a total function (slice bounds are implicitly clamped by the slicing
semantics, so nothing raises) and it does not drop any reference:
every reference contributes its own fragment to the output. -/
theorem defaultValue_malformed_no_drop (dv : DefaultValue)
    (hk : dv.kind = some "Expression") :
    buildDefaultValue dv =
      .elem "inline" ["default_value"]
        (buildExprFrags dv.display dv.type_refs) ∧
    ∀ r ∈ dv.type_refs,
      refFragment r ∈ buildExprFrags dv.display dv.type_refs := by
  constructor
  · unfold buildDefaultValue
    rw [hk, if_neg (by decide), if_pos rfl]
  · intro r hr
    have hmem : r ∈ List.insertionSort refGE dv.type_refs :=
      (List.perm_insertionSort refGE dv.type_refs).mem_iff.mpr hr
    have hin := dvFold_mem_ref dv.display _
      (([], dv.display.length) : List DocNode × Nat) r hmem
    unfold buildExprFrags
    by_cases hpos : 0 < ((List.insertionSort refGE dv.type_refs).foldl
        (dvStep dv.display) ([], dv.display.length)).2
    · rw [if_pos hpos]
      exact List.mem_cons_of_mem _ hin
    · rw [if_neg hpos]
      exact hin

/-- Witness for C3 on a concrete value with overlapping references. -/
theorem defaultValue_malformed_no_drop_witness :
    buildDefaultValue
      ⟨some "Expression", "", "xy", [⟨0, "xy", none⟩, ⟨1, "y", none⟩], ""⟩ =
      .elem "inline" ["default_value"]
        (buildExprFrags "xy" [⟨0, "xy", none⟩, ⟨1, "y", none⟩]) ∧
    ∀ r ∈ ([⟨0, "xy", none⟩, ⟨1, "y", none⟩] : List TypeRef),
      refFragment r ∈ buildExprFrags "xy" [⟨0, "xy", none⟩, ⟨1, "y", none⟩] :=
  defaultValue_malformed_no_drop
    ⟨some "Expression", "", "xy", [⟨0, "xy", none⟩, ⟨1, "y", none⟩], ""⟩ rfl

/-- C3 counterexample to the claim as stated: with overlapping
references on `display = "abc"`, the overlapping reference is *not*
dropped — its fragment appears in the output — and the best-effort
output spells `"abcbc"`, not a clipped reconstruction of `"abc"`. -/
theorem defaultValue_overlap_not_dropped :
    ¬ disjointRefs ⟨0, "abc", none⟩ ⟨1, "b", none⟩ ∧
    nodesText (buildExprFrags "abc" [⟨0, "abc", none⟩, ⟨1, "b", none⟩]) =
      "abcbc" ∧
    ("abcbc" : String) ≠ "abc" ∧
    refFragment ⟨1, "b", none⟩ ∈
      buildExprFrags "abc" [⟨0, "abc", none⟩, ⟨1, "b", none⟩] := by
  refine ⟨by decide, by decide, by decide, ?_⟩
  rw [show refFragment ⟨1, "b", none⟩ = DocNode.text "b" from rfl,
    show buildExprFrags "abc" [⟨0, "abc", none⟩, ⟨1, "b", none⟩] =
      [DocNode.text "abc", DocNode.text "b", DocNode.text "c"] from rfl]
  exact List.Mem.tail _ (List.Mem.head _)

/-! ## C8: fixed section order of the single-module entry point -/

/-- C8: for a module present in the package, the run emits the preamble
followed by the per-kind sections in the fixed order Submodules,
Functions, Classes, Type Aliases, Variables, each only when its group
is non-empty; and each kind-group preserves the items' original
relative order (it is a sublist of the module's item sequence). -/
theorem module_sections_order (pkg : DocPackage) (module_name : String)
    (myst : String → List DocNode) (dm : DocModule)
    (h : lookupModule pkg module_name = some dm) :
    runModule pkg module_name myst =
      runPreamble pkg module_name myst dm ++
        (kindSectionOrder.map (kindSection myst module_name dm.items)).flatten ∧
    ∀ k, (dm.items.filter (fun i => i.kind = k)).Sublist dm.items := by
  refine ⟨?_, fun k => List.filter_sublist _⟩
  simp only [runModule, h]
  simp only [runPreamble, kindSectionOrder, kindSection, List.map_cons,
    List.map_nil, List.flatten]
  simp [List.append_assoc]

/-- Witness for C8 on the concrete five-kind module. -/
theorem module_sections_order_witness :
    lookupModule c8Package "m" = some c8Module ∧
    (runModule c8Package "m" (fun _ => []) =
      runPreamble c8Package "m" (fun _ => []) c8Module ++
        (kindSectionOrder.map
          (kindSection (fun _ => []) "m" c8Module.items)).flatten ∧
    ∀ k, (c8Module.items.filter (fun i => i.kind = k)).Sublist
      c8Module.items) :=
  ⟨rfl, module_sections_order c8Package "m" (fun _ => []) c8Module rfl⟩
